import Mathlib

/-!
Verification of the site-monitoring pipeline (AI-visualping).
Strings are modelled as lists of characters; the ECMAScript regular
expression class for whitespace is modelled by the predicate isJsSpace
below, which lists the ECMAScript WhiteSpace and LineTerminator code
points. Note that U+200B (zero-width space) is NOT ECMAScript
whitespace, so the whitespace-collapsing pass does not touch it.
-/

namespace VisualPing

/-- ECMAScript whitespace: the regex whitespace class and the set trimmed
by the trim method of strings. -/
def isJsSpace (c : Char) : Bool :=
  c = ' ' || c = '\t' || c = '\n' || c = '\r' || c = '\u000b' || c = '\u000c' ||
  c = '\u00A0' || c = '\u1680' ||
  ('\u2000' ≤ c && c ≤ '\u200A') ||
  c = '\u2028' || c = '\u2029' || c = '\u202F' || c = '\u205F' ||
  c = '\u3000' || c = '\uFEFF'

/-- The zero-width space character U+200B removed by normalizeText. -/
def zwsp : Char := '\u200B'

/-- Helper for collapseWs: the flag records whether the previous input
character was whitespace (in which case the current run was already
replaced by a single space). -/
def collapseWsAux : Bool → List Char → List Char
  | _, [] => []
  | prevSpace, c :: cs =>
    if isJsSpace c then
      if prevSpace then collapseWsAux true cs
      else ' ' :: collapseWsAux true cs
    else c :: collapseWsAux false cs

/-- First replace pass of normalizeText: every maximal run of whitespace
characters becomes a single space. -/
def collapseWs (l : List Char) : List Char := collapseWsAux false l

/-- Second replace pass of normalizeText: delete all U+200B characters. -/
def removeZwsp (l : List Char) : List Char := l.filter (fun c => c ≠ zwsp)

/-- Remove trailing whitespace (via reversal). -/
def dropTrailingWs (l : List Char) : List Char :=
  (l.reverse.dropWhile isJsSpace).reverse

/-- The trim method: remove leading and trailing ECMAScript whitespace. -/
def jsTrim (l : List Char) : List Char := dropTrailingWs (l.dropWhile isJsSpace)

/-- normalizeText from src/hash.ts: collapse whitespace runs, remove
zero-width spaces, then trim - in exactly that order. -/
def normalizeText (l : List Char) : List Char := jsTrim (removeZwsp (collapseWs l))

/-- Canonical whitespace shape: every whitespace character in the list
is a plain space and no two are adjacent; the flag states whether the
position just before the list is treated as whitespace (so a leading
space is forbidden when the flag is true). -/
def spacesCanon : Bool → List Char → Bool
  | _, [] => true
  | prev, c :: cs =>
    if isJsSpace c then (!prev && (c = ' ')) && spacesCanon true cs
    else spacesCanon false cs

/-- The list does not start with a whitespace character. -/
def noLeadSpace : List Char → Bool
  | [] => true
  | c :: _ => !isJsSpace c

/-- A scrub pattern as configured per site: a regex source string plus
optional flags. -/
structure ScrubPattern where
  pattern : String
  flags : Option String

/-- Abstract regular-expression engine: given pattern source and flags,
either the delete-all-matches function, or none when the pattern fails
to compile (the RegExp constructor throws). The claims about the text
pipeline do not depend on the engine internals. -/
def RegexEngine : Type := String → String → Option (List Char → List Char)

/-- applyScrubPatterns from src/hash.ts: apply each pattern in order,
deleting matches; a pattern that fails to compile is skipped with a
warning and never aborts the pipeline. -/
def applyScrubPatterns (re : RegexEngine) (text : List Char)
    (patterns : Option (List ScrubPattern)) : List Char :=
  match patterns with
  | none => text
  | some ps =>
    if ps.length = 0 then text
    else
      ps.foldl (fun scrubbedText p =>
        match re p.pattern (p.flags.getD "") with
        | some deleteMatches => deleteMatches scrubbedText
        | none => scrubbedText) text

/-- processText from src/hash.ts: the fused scrub-then-normalize routine,
transcribed with its own guard, loop and inline normalization steps. -/
def processText (re : RegexEngine) (text : List Char)
    (scrubPatterns : Option (List ScrubPattern)) : List Char :=
  let processedText :=
    match scrubPatterns with
    | some ps =>
      if ps.length > 0 then
        ps.foldl (fun acc p =>
          match re p.pattern (p.flags.getD "") with
          | some deleteMatches => deleteMatches acc
          | none => acc) text
      else text
    | none => text
  jsTrim (removeZwsp (collapseWs processedText))

/-! ## Relevance module (src/relevance.ts) -/

/-- Map every character to lower case: the toLowerCase method. -/
def toLowerList (l : List Char) : List Char := l.map Char.toLower

/-- Does the second list start with the first one? -/
def listStartsWith : List Char → List Char → Bool
  | [], _ => true
  | _ :: _, [] => false
  | a :: as, b :: bs => a = b && listStartsWith as bs

/-- The includes method of strings: needle occurs somewhere in hay. -/
def occursIn (needle : List Char) : List Char → Bool
  | [] => listStartsWith needle []
  | c :: cs => listStartsWith needle (c :: cs) || occursIn needle cs

/-- Relevance mode of a site. -/
inductive RelevanceMode
  | strict
  | loose
deriving DecidableEq

/-- The per-site configuration fields consumed by the relevance pipeline
(src/config.ts, type SiteConfig); optional fields are Option-typed as in
the TypeScript declaration. -/
structure SiteConfig where
  id : String
  goal_keywords : Option (List (List Char))
  goal_negative_hints : Option (List (List Char))
  goal_date : Option (List Char)
  relevance_mode : Option RelevanceMode

/-- Result of the heuristic filter. -/
structure HeuristicResult where
  hit : Bool
  detail : List Char
deriving DecidableEq

/-- The built-in list of generic unavailability phrases appended to the
configured negative hints in checkHeuristic. -/
def builtinNegativeHints : List (List Char) :=
  [("no reservations available").toList,
   ("no availability").toList,
   ("no longer available").toList,
   ("reservations are no longer available").toList,
   ("not available").toList,
   ("unavailable").toList,
   ("no times available").toList,
   ("no slots available").toList,
   ("fully committed").toList,
   ("no openings").toList,
   ("closed for reservations").toList]

/-- checkHeuristic from src/relevance.ts. -/
def checkHeuristic (text : List Char) (site : SiteConfig) : HeuristicResult :=
  let lowerText := toLowerList text
  let positiveHits := (site.goal_keywords.getD []).filter fun keyword =>
    occursIn (toLowerList keyword) lowerText
  let enhancedNegativeHints := site.goal_negative_hints.getD [] ++ builtinNegativeHints
  let negativeHits := enhancedNegativeHints.filter fun hint =>
    occursIn (toLowerList hint) lowerText
  let dateCheck :=
    match site.goal_date with
    | none => true
    | some isoDate =>
      let condensedDate := isoDate.filter (fun c => c ≠ '-')
      occursIn isoDate lowerText || occursIn condensedDate lowerText
  let hasPositive := decide (0 < positiveHits.length)
  let hasNegative := decide (0 < negativeHits.length)
  let hit := hasPositive && !hasNegative && dateCheck
  let details :=
    (if hasPositive then
       [("positive: ").toList ++ List.intercalate (", ").toList positiveHits]
     else []) ++
    (if hasNegative then
       [("negative: ").toList ++ List.intercalate (", ").toList negativeHits]
     else []) ++
    (if !dateCheck then
       [("date not found: ").toList ++ (site.goal_date.getD [])]
     else [])
  { hit := hit
    detail :=
      if 0 < details.length then List.intercalate ("; ").toList details
      else ("no specific indicators").toList }

/-- A JSON-ish value as far as the structural validation in
classifyRelevance can see it: a boolean, a string, or something else. -/
inductive JVal
  | jb : Bool → JVal
  | js : List Char → JVal
  | other : JVal

/-- The parsed shape of a classifier response: each expected field is
present with some value, or absent. -/
structure GptParsed where
  relevantField : Option JVal
  reasonField : Option JVal
  summaryField : Option JVal

/-- Outcome of the underlying chat-completion call: the call itself
failed (network error, timeout, API error) with a message, or it
returned with the (trimmed) message content, which can be empty. -/
inductive GptOutcome
  | callFailed : List Char → GptOutcome
  | returned : Option (List Char) → GptOutcome

/-- Result type of classifyRelevance. -/
structure RelevanceResult where
  relevant : Bool
  reason : List Char
deriving DecidableEq

/-- Result type of analyzeChangeRelevanceAndSummary. -/
structure CombinedAnalysisResult where
  relevant : Bool
  reason : List Char
  summary : List Char
deriving DecidableEq

/-- classifyRelevance from src/relevance.ts, with the network call and
JSON parsing abstracted: parse maps raw content to a parsed shape or a
parse error message. Every failure path lands in the catch block, which
returns relevant true with the failure text in the reason. -/
def classifyRelevance (parse : List Char → Except (List Char) GptParsed)
    (outcome : GptOutcome) : RelevanceResult :=
  match outcome with
  | .callFailed msg =>
    { relevant := true, reason := ("Classification error: ").toList ++ msg }
  | .returned none =>
    { relevant := true
      reason := ("Classification error: ").toList ++ ("Empty response from GPT").toList }
  | .returned (some content) =>
    match parse content with
    | .error msg =>
      { relevant := true, reason := ("Classification error: ").toList ++ msg }
    | .ok parsed =>
      match parsed.relevantField, parsed.reasonField with
      | some (.jb b), some (.js r) => { relevant := b, reason := r }
      | _, _ =>
        { relevant := true
          reason := ("Classification error: ").toList ++
            ("Invalid response format from GPT").toList }

/-- analyzeChangeRelevanceAndSummary from src/relevance.ts, abstracted
the same way; the validation additionally requires a string summary
field, and the fallback carries a fixed summary text. -/
def analyzeChangeRelevanceAndSummary
    (parse : List Char → Except (List Char) GptParsed)
    (outcome : GptOutcome) : CombinedAnalysisResult :=
  let fallbackSummary := ("Change detected but analysis failed. Manual review recommended.").toList
  match outcome with
  | .callFailed msg =>
    { relevant := true, reason := ("Analysis error: ").toList ++ msg
      summary := fallbackSummary }
  | .returned none =>
    { relevant := true
      reason := ("Analysis error: ").toList ++ ("Empty response from GPT").toList
      summary := fallbackSummary }
  | .returned (some content) =>
    match parse content with
    | .error msg =>
      { relevant := true, reason := ("Analysis error: ").toList ++ msg
        summary := fallbackSummary }
    | .ok parsed =>
      match parsed.relevantField, parsed.reasonField, parsed.summaryField with
      | some (.jb b), some (.js r), some (.js s) =>
        { relevant := b, reason := r, summary := s }
      | _, _, _ =>
        { relevant := true
          reason := ("Analysis error: ").toList ++
            ("Invalid response format from GPT").toList
          summary := fallbackSummary }

/-! ## Site job (processSite in the two SiteScheduler variants) -/

/-- A persisted baseline record (src/baseline.ts shape as written by
processSite). -/
structure BaselineRec where
  hash : String
  text : List Char
  lastCheckedISO : String
deriving DecidableEq

/-- Kinds of notifications sent to the notifier. -/
inductive NotificationKind
  | relevant
  | loose
  | baseline
  | error
deriving DecidableEq

/-- Observable outcome of one successfully fetched processSite cycle:
what baseline record was written (none when no write happened), whether
the GPT classifier collaborator was invoked, and which change or
baseline notification was sent (none when no notification). -/
structure CycleOutcome where
  baselineWritten : Option BaselineRec
  classifierInvoked : Bool
  notification : Option NotificationKind
deriving DecidableEq

namespace Scheduler

/-- processSite of the staggered-async-pool SiteScheduler, for a cycle
whose scrape succeeded. The hash function, the current timestamp, the
baseline-notice flag and the classifier verdict for this cycle are
passed as parameters; classify is only consulted on the branch where
the code invokes classifyRelevance. -/
def processSite (sha256 : List Char → String) (now : String)
    (sendBaselineNotice : Bool) (classify : RelevanceResult)
    (site : SiteConfig) (baseline : Option BaselineRec)
    (currentText : List Char) : CycleOutcome :=
  let currentHash := sha256 currentText
  match baseline with
  | none =>
    { baselineWritten := some ⟨currentHash, currentText, now⟩
      classifierInvoked := false
      notification := if sendBaselineNotice then some .baseline else none }
  | some b =>
    if b.hash = currentHash then
      { baselineWritten := none, classifierInvoked := false, notification := none }
    else
      let heuristicResult := checkHeuristic currentText site
      if site.relevance_mode = some .strict then
        if heuristicResult.hit then
          { baselineWritten := some ⟨currentHash, currentText, now⟩
            classifierInvoked := true
            notification := if classify.relevant then some .relevant else none }
        else
          { baselineWritten := some ⟨currentHash, currentText, now⟩
            classifierInvoked := false
            notification := none }
      else
        { baselineWritten := some ⟨currentHash, currentText, now⟩
          classifierInvoked := false
          notification := some .loose }

end Scheduler

namespace Pipeline

/-- processSite of the sequential-pipeline SiteScheduler variant, same
abstraction; this variant calls the combined
analyzeChangeRelevanceAndSummary, and in loose mode still invokes it to
obtain a summary while ignoring its verdict. -/
def processSite (sha256 : List Char → String) (now : String)
    (sendBaselineNotice : Bool) (analysis : CombinedAnalysisResult)
    (site : SiteConfig) (baseline : Option BaselineRec)
    (currentText : List Char) : CycleOutcome :=
  let currentHash := sha256 currentText
  match baseline with
  | none =>
    { baselineWritten := some ⟨currentHash, currentText, now⟩
      classifierInvoked := false
      notification := if sendBaselineNotice then some .baseline else none }
  | some b =>
    if b.hash = currentHash then
      { baselineWritten := none, classifierInvoked := false, notification := none }
    else
      let heuristicResult := checkHeuristic currentText site
      if site.relevance_mode = some .strict then
        if heuristicResult.hit then
          { baselineWritten := some ⟨currentHash, currentText, now⟩
            classifierInvoked := true
            notification := if analysis.relevant then some .relevant else none }
        else
          { baselineWritten := some ⟨currentHash, currentText, now⟩
            classifierInvoked := false
            notification := none }
      else
        { baselineWritten := some ⟨currentHash, currentText, now⟩
          classifierInvoked := true
          notification := some .loose }

end Pipeline

/-! ## Error throttle (src/notify.ts) -/

/-- The throttle window: 10 minutes in milliseconds. -/
def throttleIntervalMs : Int := 10 * 60 * 1000

/-- The per-site last-error timestamp map. -/
structure ThrottleState where
  entries : String → Option Int

/-- shouldThrottleError from src/notify.ts, with the current clock value
passed explicitly. The untruthiness test on the looked-up value is kept:
a stored timestamp of zero behaves like a missing entry in the
JavaScript source. Returns the verdict and the updated map. -/
def shouldThrottleError (st : ThrottleState) (siteId : String)
    (now : Int) : Bool × ThrottleState :=
  let lastError := st.entries siteId
  let arm : ThrottleState :=
    ⟨fun s => if s = siteId then some now else st.entries s⟩
  match lastError with
  | none => (false, arm)
  | some t =>
    if t = 0 ∨ now - t > throttleIntervalMs then (false, arm)
    else (true, st)

/-! ## Fetch retry (scrapeWithRetry in src/scrape.ts, both variants) -/

/-- Trace of one scrapeWithRetry run: the final outcome, how many fetch
attempts were made, and the backoff delays slept between attempts. -/
structure ScrapeTrace where
  result : Except (List Char) (List Char)
  attemptsMade : Nat
  delaysMs : List Nat

/-- The timeout marker searched for in error messages: the retry code
checks that the message includes the word Timeout. -/
def timeoutMarker : List Char := ("Timeout").toList

/-- The retry loop of scrapeWithRetry: maxAttempts is 2; a failed
attempt is retried only while attempt < maxAttempts and only when the
error message contains the word Timeout, after a fixed 2000 ms delay;
otherwise the error propagates. The per-attempt fetch outcome is the
parameter. -/
def scrapeWithRetry (fetch : Nat → Except (List Char) (List Char))
    (attempt : Nat) : ScrapeTrace :=
  let maxAttempts := 2
  match fetch attempt with
  | .ok text => ⟨.ok text, 1, []⟩
  | .error msg =>
    if h : attempt < maxAttempts ∧ occursIn timeoutMarker msg = true then
      let rest := scrapeWithRetry fetch (attempt + 1)
      ⟨rest.result, rest.attemptsMade + 1, 2000 :: rest.delaysMs⟩
    else ⟨.error msg, 1, []⟩
termination_by 2 - attempt
decreasing_by omega

/-- scrapeSite: entry point, first attempt is number 1. -/
def scrapeSite (fetch : Nat → Except (List Char) (List Char)) : ScrapeTrace :=
  scrapeWithRetry fetch 1

/-! ## Scheduler concurrency model (SiteScheduler dispatcher and workers)

The dispatcher loop, the worker loops and the job-completion callbacks
of the staggered-async-pool SiteScheduler run on a single JavaScript
event loop; the code between two await points executes atomically. The
three atomic blocks that touch the shared queue, the active-worker
counter and the per-site running flags are modelled as the three steps
below.

- dispatch: the dispatcher finds a due site whose running flag is
  clear and the active-worker count below maxConcurrency; it sets the
  flag and appends a job to the queue, with no await in between. The
  due-time and per-round-limit checks only further restrict when this
  step fires, so omitting them over-approximates the reachable states.
- workerTake: a worker observes a non-empty queue and an active-worker
  count below maxConcurrency, removes the head job and increments the
  counter, again atomically, then starts the job without awaiting it.
- jobFinish: the finally callback of a completed or failed job
  decrements the counter and, via scheduleNextRun, clears the running
  flag of the site. -/

/-- Shared mutable state of the SiteScheduler: the worker queue, the
multiset of currently executing site jobs (as a list of site ids), the
activeWorkers counter and the per-site isRunning flags. -/
structure SchedState where
  queue : List String
  running : List String
  activeWorkers : Nat
  isRunning : String → Bool

/-- Initial scheduler state: nothing queued, nothing running. -/
def initState : SchedState :=
  { queue := [], running := [], activeWorkers := 0, isRunning := fun _ => false }

/-- Atomic steps of the scheduler, as described in the section header. -/
inductive SchedStep (maxConcurrency : Nat) : SchedState → SchedState → Prop
  | dispatch (s : SchedState) (siteId : String)
      (hidle : s.isRunning siteId = false)
      (hcap : s.activeWorkers < maxConcurrency) :
      SchedStep maxConcurrency s
        { queue := s.queue ++ [siteId]
          running := s.running
          activeWorkers := s.activeWorkers
          isRunning := fun x => if x = siteId then true else s.isRunning x }
  | workerTake (s : SchedState) (siteId : String) (rest : List String)
      (hq : s.queue = siteId :: rest)
      (hcap : s.activeWorkers < maxConcurrency) :
      SchedStep maxConcurrency s
        { queue := rest
          running := siteId :: s.running
          activeWorkers := s.activeWorkers + 1
          isRunning := s.isRunning }
  | jobFinish (s : SchedState) (siteId : String)
      (hrun : siteId ∈ s.running) :
      SchedStep maxConcurrency s
        { queue := s.queue
          running := s.running.erase siteId
          activeWorkers := s.activeWorkers - 1
          isRunning := fun x => if x = siteId then false else s.isRunning x }

/-- States reachable from the initial state by scheduler steps. -/
inductive SchedReachable (maxConcurrency : Nat) : SchedState → Prop
  | init : SchedReachable maxConcurrency initState
  | step {s t : SchedState} : SchedReachable maxConcurrency s →
      SchedStep maxConcurrency s t → SchedReachable maxConcurrency t

/-- Number of jobs for a given site that are queued or executing. -/
def inFlightCount (s : SchedState) (siteId : String) : Nat :=
  s.queue.count siteId + s.running.count siteId

/-- The scheduler invariant: the counter tracks the executing multiset,
the concurrency budget is respected, a site with a clear running flag
has no job in flight, and every site has at most one job in flight. -/
def SchedInv (maxConcurrency : Nat) (s : SchedState) : Prop :=
  s.activeWorkers = s.running.length ∧
  s.running.length ≤ maxConcurrency ∧
  (∀ siteId, s.isRunning siteId = false → inFlightCount s siteId = 0) ∧
  (∀ siteId, inFlightCount s siteId ≤ 1)

/-! ## Helper lemmas -/

theorem listStartsWith_append (n t : List Char) : listStartsWith n (n ++ t) = true := by
  induction n with
  | nil => rfl
  | cons a as ih => simp [listStartsWith, ih]

theorem occursIn_self (n : List Char) : occursIn n n = true := by
  cases n with
  | nil => rfl
  | cons c cs =>
    have h := listStartsWith_append (c :: cs) []
    rw [List.append_nil] at h
    simp [occursIn, h]

theorem occursIn_append (n p : List Char) : occursIn n (p ++ n) = true := by
  induction p with
  | nil => simpa using occursIn_self n
  | cons a ps ih => simp [occursIn, ih]

/-! ## Whitespace canonicity lemmas for the normalization pipeline -/

theorem spacesCanon_collapseWsAux (l : List Char) :
    ∀ b, spacesCanon b (collapseWsAux b l) = true := by
  induction l with
  | nil => intro b; rfl
  | cons c cs ih =>
    intro b
    by_cases h : isJsSpace c
    · cases b with
      | true => simpa [collapseWsAux, h] using ih true
      | false =>
        have hsp : isJsSpace ' ' = true := by decide
        simp only [collapseWsAux, if_pos h, if_neg (by simp : ¬false = true),
          spacesCanon, hsp, if_pos hsp]
        simp [ih true]
    · simp only [collapseWsAux, if_neg h, spacesCanon]
      exact ih false

theorem collapseWsAux_eq_self (l : List Char) :
    ∀ b, spacesCanon b l = true → collapseWsAux b l = l := by
  induction l with
  | nil => intro b _; rfl
  | cons c cs ih =>
    intro b hc
    by_cases h : isJsSpace c
    · simp only [spacesCanon, if_pos h, Bool.and_eq_true, Bool.not_eq_true',
        decide_eq_true_eq] at hc
      obtain ⟨⟨hb, hcsp⟩, hrest⟩ := hc
      subst hb
      subst hcsp
      simp only [collapseWsAux, if_pos h, if_neg (by simp : ¬false = true)]
      rw [ih true hrest]
    · simp only [spacesCanon, if_neg h] at hc
      simp only [collapseWsAux, if_neg h]
      rw [ih false hc]

theorem mem_collapseWsAux (l : List Char) :
    ∀ b c, c ∈ collapseWsAux b l → c = ' ' ∨ c ∈ l := by
  induction l with
  | nil =>
    intro b c hc
    simp [collapseWsAux] at hc
  | cons a as ih =>
    intro b c hc
    by_cases h : isJsSpace a
    · cases b with
      | true =>
        simp only [collapseWsAux, if_pos h, if_pos rfl] at hc
        rcases ih true c hc with h1 | h2
        · exact Or.inl h1
        · exact Or.inr (List.mem_cons_of_mem _ h2)
      | false =>
        simp only [collapseWsAux, if_pos h, if_neg (by simp : ¬false = true),
          List.mem_cons] at hc
        rcases hc with rfl | hc
        · exact Or.inl rfl
        · rcases ih true c hc with h1 | h2
          · exact Or.inl h1
          · exact Or.inr (List.mem_cons_of_mem _ h2)
    · simp only [collapseWsAux, if_neg h, List.mem_cons] at hc
      rcases hc with rfl | hc
      · exact Or.inr (List.mem_cons_self _ _)
      · rcases ih false c hc with h1 | h2
        · exact Or.inl h1
        · exact Or.inr (List.mem_cons_of_mem _ h2)

theorem spacesCanon_dropWhile (l : List Char) :
    ∀ b, spacesCanon b l = true → spacesCanon true (l.dropWhile isJsSpace) = true := by
  induction l with
  | nil => intro b _; rfl
  | cons c cs ih =>
    intro b hc
    by_cases h : isJsSpace c
    · rw [List.dropWhile_cons, if_pos h]
      simp only [spacesCanon, if_pos h, Bool.and_eq_true] at hc
      exact ih true hc.2
    · rw [List.dropWhile_cons, if_neg h]
      simp only [spacesCanon, if_neg h] at hc ⊢
      exact hc

theorem spacesCanon_append_left (l t : List Char) :
    ∀ b, spacesCanon b (l ++ t) = true → spacesCanon b l = true := by
  induction l with
  | nil => intro b _; rfl
  | cons c cs ih =>
    intro b hc
    by_cases h : isJsSpace c
    · simp only [List.cons_append, spacesCanon, if_pos h, Bool.and_eq_true] at hc ⊢
      exact ⟨hc.1, ih true hc.2⟩
    · simp only [List.cons_append, spacesCanon, if_neg h] at hc ⊢
      exact ih false hc

theorem spacesCanon_false_of_true (l : List Char) (b : Bool)
    (h : spacesCanon true l = true) : spacesCanon b l = true := by
  cases l with
  | nil => rfl
  | cons c cs =>
    by_cases hs : isJsSpace c
    · simp [spacesCanon, hs] at h
    · simp only [spacesCanon, if_neg hs] at h ⊢
      exact h

theorem dropWhile_eq_self_of_noLead (l : List Char)
    (h : noLeadSpace l = true) : l.dropWhile isJsSpace = l := by
  cases l with
  | nil => rfl
  | cons c cs =>
    simp only [noLeadSpace, Bool.not_eq_true'] at h
    rw [List.dropWhile_cons, if_neg (by simp [h])]

theorem noLeadSpace_dropWhile (l : List Char) :
    noLeadSpace (l.dropWhile isJsSpace) = true := by
  induction l with
  | nil => rfl
  | cons c cs ih =>
    by_cases h : isJsSpace c
    · rw [List.dropWhile_cons, if_pos h]
      exact ih
    · rw [List.dropWhile_cons, if_neg h]
      simp [noLeadSpace, Bool.not_eq_true', h]

theorem noLeadSpace_append_left (l t : List Char)
    (h : noLeadSpace (l ++ t) = true) : noLeadSpace l = true := by
  cases l with
  | nil => rfl
  | cons c cs => simpa [noLeadSpace] using h

theorem dropTrailingWs_prefix (l : List Char) : ∃ t, l = dropTrailingWs l ++ t := by
  obtain ⟨t, ht⟩ := List.dropWhile_suffix (l := l.reverse) (p := isJsSpace)
  refine ⟨t.reverse, ?_⟩
  have hrev := congrArg List.reverse ht
  simp only [List.reverse_append, List.reverse_reverse] at hrev
  rw [dropTrailingWs]
  exact hrev.symm

theorem mem_dropTrailingWs (l : List Char) (c : Char)
    (h : c ∈ dropTrailingWs l) : c ∈ l := by
  obtain ⟨t, ht⟩ := dropTrailingWs_prefix l
  rw [ht]
  exact List.mem_append_left _ h

theorem mem_dropWhileWs (l : List Char) (c : Char)
    (h : c ∈ l.dropWhile isJsSpace) : c ∈ l :=
  (List.dropWhile_suffix _).subset h

theorem spacesCanon_dropTrailingWs (l : List Char) (b : Bool)
    (h : spacesCanon b l = true) : spacesCanon b (dropTrailingWs l) = true := by
  obtain ⟨t, ht⟩ := dropTrailingWs_prefix l
  exact spacesCanon_append_left _ t b (ht ▸ h)

theorem removeZwsp_eq_self (l : List Char)
    (h : ∀ c ∈ l, c ≠ zwsp) : removeZwsp l = l := by
  rw [removeZwsp, List.filter_eq_self]
  intro a ha
  simpa using h a ha

theorem jsTrim_eq_self (l : List Char) (h1 : noLeadSpace l = true)
    (h2 : noLeadSpace l.reverse = true) : jsTrim l = l := by
  rw [jsTrim, dropWhile_eq_self_of_noLead l h1, dropTrailingWs,
    dropWhile_eq_self_of_noLead l.reverse h2, List.reverse_reverse]

/-! ## C7: idempotence of normalizeText

The claim fails on the code: the whitespace-collapsing pass runs before
zero-width-space removal, so deleting a zero-width space can make two
already-collapsed spaces adjacent, which only a second pass collapses.
On input a, space, U+200B, space, b the first normalization yields a,
space, space, b and the second collapses the double space. For inputs
free of U+200B the function is idempotent. -/

/-- Counterexample to claim C7 as stated: normalizeText is not
idempotent on the concrete input a, space, zero-width space, space, b. -/
theorem normalizeText_not_idempotent :
    normalizeText (normalizeText ['a', ' ', zwsp, ' ', 'b']) ≠
      normalizeText ['a', ' ', zwsp, ' ', 'b'] := by decide

/-- Amended C7: for every string that contains no zero-width space,
normalizeText is idempotent. -/
theorem normalizeText_idempotent_of_no_zwsp (l : List Char) (h : zwsp ∉ l) :
    normalizeText (normalizeText l) = normalizeText l := by
  have hcol : spacesCanon false (collapseWs l) = true :=
    spacesCanon_collapseWsAux l false
  have hmemcol : ∀ c ∈ collapseWs l, c ≠ zwsp := by
    intro c hc hceq
    rcases mem_collapseWsAux l false c hc with h1 | h2
    · rw [hceq] at h1
      exact absurd h1 (by decide)
    · exact h (hceq ▸ h2)
  have hrz : removeZwsp (collapseWs l) = collapseWs l := removeZwsp_eq_self _ hmemcol
  have hnl : normalizeText l = dropTrailingWs ((collapseWs l).dropWhile isJsSpace) := by
    rw [normalizeText, hrz, jsTrim]
  have hg_canon : spacesCanon true ((collapseWs l).dropWhile isJsSpace) = true :=
    spacesCanon_dropWhile _ false hcol
  have hf_canon :
      spacesCanon true (dropTrailingWs ((collapseWs l).dropWhile isJsSpace)) = true :=
    spacesCanon_dropTrailingWs _ true hg_canon
  have hf_lead :
      noLeadSpace (dropTrailingWs ((collapseWs l).dropWhile isJsSpace)) = true := by
    obtain ⟨t, ht⟩ := dropTrailingWs_prefix ((collapseWs l).dropWhile isJsSpace)
    exact noLeadSpace_append_left _ t (ht ▸ noLeadSpace_dropWhile (collapseWs l))
  have hf_revlead :
      noLeadSpace (dropTrailingWs ((collapseWs l).dropWhile isJsSpace)).reverse = true := by
    have hrev : (dropTrailingWs ((collapseWs l).dropWhile isJsSpace)).reverse =
        ((collapseWs l).dropWhile isJsSpace).reverse.dropWhile isJsSpace := by
      rw [dropTrailingWs, List.reverse_reverse]
    rw [hrev]
    exact noLeadSpace_dropWhile _
  have hf_mem :
      ∀ c ∈ dropTrailingWs ((collapseWs l).dropWhile isJsSpace), c ≠ zwsp := by
    intro c hc
    exact hmemcol c (mem_dropWhileWs _ c (mem_dropTrailingWs _ c hc))
  rw [hnl, normalizeText, collapseWs,
    collapseWsAux_eq_self _ false (spacesCanon_false_of_true _ false hf_canon),
    removeZwsp_eq_self _ hf_mem,
    jsTrim_eq_self _ hf_lead hf_revlead]

/-- Witness for the amended C7 at a concrete zwsp-free input. -/
theorem normalizeText_idempotent_witness :
    zwsp ∉ ['a', ' ', ' ', 'b'] ∧
    normalizeText (normalizeText ['a', ' ', ' ', 'b']) =
      normalizeText ['a', ' ', ' ', 'b'] :=
  ⟨by decide, normalizeText_idempotent_of_no_zwsp ['a', ' ', ' ', 'b'] (by decide)⟩

/-! ## C10: the fused processText equals scrub-then-normalize -/

/-- Claim C10: for every text and every list of scrub patterns,
including absent and empty lists and patterns that fail to compile, the
fused processText returns exactly normalizeText applied to
applyScrubPatterns, over any regex engine. -/
theorem processText_eq_normalize_scrub (re : RegexEngine) (text : List Char)
    (patterns : Option (List ScrubPattern)) :
    processText re text patterns =
      normalizeText (applyScrubPatterns re text patterns) := by
  cases patterns with
  | none => rfl
  | some ps =>
    cases ps with
    | nil => rfl
    | cons p rest => simp [processText, applyScrubPatterns, normalizeText]

/-! ## C1: strict mode with a heuristic miss never escalates -/

/-- Claim C1: for every change event (stored baseline present, new
fingerprint different) processed in strict relevance mode, if the
heuristic filter reports no hit then the semantic classifier is not
invoked and no change notification is sent, in both scheduler
variants. -/
theorem strict_miss_skips_classifier
    (sha256 : List Char → String) (now : String) (sendBaselineNotice : Bool)
    (classify : RelevanceResult) (analysis : CombinedAnalysisResult)
    (site : SiteConfig) (b : BaselineRec) (currentText : List Char)
    (hmode : site.relevance_mode = some .strict)
    (hmiss : (checkHeuristic currentText site).hit = false)
    (hchange : b.hash ≠ sha256 currentText) :
    (Scheduler.processSite sha256 now sendBaselineNotice classify site
        (some b) currentText).classifierInvoked = false ∧
    (Scheduler.processSite sha256 now sendBaselineNotice classify site
        (some b) currentText).notification = none ∧
    (Pipeline.processSite sha256 now sendBaselineNotice analysis site
        (some b) currentText).classifierInvoked = false ∧
    (Pipeline.processSite sha256 now sendBaselineNotice analysis site
        (some b) currentText).notification = none := by
  simp [Scheduler.processSite, Pipeline.processSite, hmode, hmiss, hchange]

/-- Witness for C1 at a concrete site: strict mode, no configured
keywords (so the heuristic misses), changed hash. -/
theorem strict_miss_skips_classifier_witness :
    (Scheduler.processSite (fun _ => "h1") "now" false ⟨true, []⟩
        ⟨"s", none, none, none, some .strict⟩
        (some ⟨"h0", [], "t"⟩) ['x']).classifierInvoked = false ∧
    (Scheduler.processSite (fun _ => "h1") "now" false ⟨true, []⟩
        ⟨"s", none, none, none, some .strict⟩
        (some ⟨"h0", [], "t"⟩) ['x']).notification = none ∧
    (Pipeline.processSite (fun _ => "h1") "now" false ⟨true, [], []⟩
        ⟨"s", none, none, none, some .strict⟩
        (some ⟨"h0", [], "t"⟩) ['x']).classifierInvoked = false ∧
    (Pipeline.processSite (fun _ => "h1") "now" false ⟨true, [], []⟩
        ⟨"s", none, none, none, some .strict⟩
        (some ⟨"h0", [], "t"⟩) ['x']).notification = none :=
  strict_miss_skips_classifier (fun _ => "h1") "now" false ⟨true, []⟩ ⟨true, [], []⟩
    ⟨"s", none, none, none, some .strict⟩ ⟨"h0", [], "t"⟩ ['x']
    rfl (by decide) (by decide)

/-! ## C3: a changed fingerprint always updates the baseline -/

/-- Claim C3: for every completed cycle whose new fingerprint differs
from the stored baseline fingerprint, the baseline record is
overwritten with the new fingerprint and text, in both scheduler
variants, whatever the relevance mode, heuristic result and classifier
verdict (so also on a strict-mode heuristic miss). -/
theorem changed_fingerprint_updates_baseline
    (sha256 : List Char → String) (now : String) (sendBaselineNotice : Bool)
    (classify : RelevanceResult) (analysis : CombinedAnalysisResult)
    (site : SiteConfig) (b : BaselineRec) (currentText : List Char)
    (hchange : b.hash ≠ sha256 currentText) :
    (Scheduler.processSite sha256 now sendBaselineNotice classify site
        (some b) currentText).baselineWritten =
      some ⟨sha256 currentText, currentText, now⟩ ∧
    (Pipeline.processSite sha256 now sendBaselineNotice analysis site
        (some b) currentText).baselineWritten =
      some ⟨sha256 currentText, currentText, now⟩ := by
  constructor <;>
  · simp only [Scheduler.processSite, Pipeline.processSite]
    rw [if_neg hchange]
    split <;> first
      | rfl
      | (split <;> rfl)

/-- Witness for C3: strict mode with a heuristic miss still writes the
new baseline. -/
theorem changed_fingerprint_updates_baseline_witness :
    (Scheduler.processSite (fun _ => "h1") "now" false ⟨false, []⟩
        ⟨"s", none, none, none, some .strict⟩
        (some ⟨"h0", [], "t"⟩) []).baselineWritten = some ⟨"h1", [], "now"⟩ ∧
    (Pipeline.processSite (fun _ => "h1") "now" false ⟨false, [], []⟩
        ⟨"s", none, none, none, some .strict⟩
        (some ⟨"h0", [], "t"⟩) []).baselineWritten = some ⟨"h1", [], "now"⟩ :=
  changed_fingerprint_updates_baseline (fun _ => "h1") "now" false ⟨false, []⟩
    ⟨false, [], []⟩ ⟨"s", none, none, none, some .strict⟩ ⟨"h0", [], "t"⟩ []
    (by decide)

/-! ## C6: baseline write on unchanged fingerprint

The claim says a successfully fetched cycle overwrites the stored
baseline even when the new fingerprint equals the stored one. In both
scheduler variants the code returns before the write when the hashes
are equal, so no overwrite happens on an equal fingerprint. -/

/-- Counterexample to claim C6 as stated: a successfully fetched cycle
with a stored baseline whose fingerprint equals the new one performs no
baseline write at all, in both scheduler variants. -/
theorem equal_fingerprint_skips_baseline_write :
    (Scheduler.processSite (fun _ => "h0") "now" false ⟨true, []⟩
        ⟨"s", none, none, none, some .strict⟩
        (some ⟨"h0", [], "t"⟩) []).baselineWritten = none ∧
    (Pipeline.processSite (fun _ => "h0") "now" false ⟨true, [], []⟩
        ⟨"s", none, none, none, some .strict⟩
        (some ⟨"h0", [], "t"⟩) []).baselineWritten = none := by
  constructor <;> rfl

/-- Amended C6: for a site with a stored baseline, a successfully
fetched cycle overwrites the baseline record (whether or not a
notification fires) exactly when the new fingerprint differs from the
stored one; when they are equal the cycle performs no write. -/
theorem baseline_write_iff_fingerprint_changed
    (sha256 : List Char → String) (now : String) (sendBaselineNotice : Bool)
    (classify : RelevanceResult) (analysis : CombinedAnalysisResult)
    (site : SiteConfig) (b : BaselineRec) (currentText : List Char) :
    (Scheduler.processSite sha256 now sendBaselineNotice classify site
        (some b) currentText).baselineWritten =
      (if b.hash = sha256 currentText then none
       else some ⟨sha256 currentText, currentText, now⟩) ∧
    (Pipeline.processSite sha256 now sendBaselineNotice analysis site
        (some b) currentText).baselineWritten =
      (if b.hash = sha256 currentText then none
       else some ⟨sha256 currentText, currentText, now⟩) := by
  by_cases h : b.hash = sha256 currentText
  · simp [Scheduler.processSite, Pipeline.processSite, h]
  · constructor <;>
    · simp only [Scheduler.processSite, Pipeline.processSite]
      rw [if_neg h, if_neg h]
      split <;> first
        | rfl
        | (split <;> rfl)

/-! ## C4: classifier failures fail open -/

/-- Claim C4: whenever the underlying classifier call fails, returns
empty content, returns unparsable content, or returns a response whose
expected fields are missing or wrongly typed, both classification
functions return relevant true with the failure text contained in the
reason, instead of propagating the error. -/
theorem classifier_fails_open
    (parse : List Char → Except (List Char) GptParsed)
    (msg content : List Char) (parsed : GptParsed) :
    ((classifyRelevance parse (.callFailed msg)).relevant = true ∧
      occursIn msg (classifyRelevance parse (.callFailed msg)).reason = true) ∧
    ((classifyRelevance parse (.returned none)).relevant = true ∧
      occursIn ("Empty response from GPT").toList
        (classifyRelevance parse (.returned none)).reason = true) ∧
    (parse content = .error msg →
      (classifyRelevance parse (.returned (some content))).relevant = true ∧
      occursIn msg
        (classifyRelevance parse (.returned (some content))).reason = true) ∧
    (parse content = .ok parsed →
      ((∀ b, parsed.relevantField ≠ some (.jb b)) ∨
       (∀ r, parsed.reasonField ≠ some (.js r))) →
      (classifyRelevance parse (.returned (some content))).relevant = true ∧
      occursIn ("Invalid response format from GPT").toList
        (classifyRelevance parse (.returned (some content))).reason = true) ∧
    ((analyzeChangeRelevanceAndSummary parse (.callFailed msg)).relevant = true ∧
      occursIn msg
        (analyzeChangeRelevanceAndSummary parse (.callFailed msg)).reason = true) ∧
    ((analyzeChangeRelevanceAndSummary parse (.returned none)).relevant = true ∧
      occursIn ("Empty response from GPT").toList
        (analyzeChangeRelevanceAndSummary parse (.returned none)).reason = true) ∧
    (parse content = .error msg →
      (analyzeChangeRelevanceAndSummary parse (.returned (some content))).relevant = true ∧
      occursIn msg
        (analyzeChangeRelevanceAndSummary parse (.returned (some content))).reason = true) ∧
    (parse content = .ok parsed →
      ((∀ b, parsed.relevantField ≠ some (.jb b)) ∨
       (∀ r, parsed.reasonField ≠ some (.js r)) ∨
       (∀ s, parsed.summaryField ≠ some (.js s))) →
      (analyzeChangeRelevanceAndSummary parse (.returned (some content))).relevant = true ∧
      occursIn ("Invalid response format from GPT").toList
        (analyzeChangeRelevanceAndSummary parse (.returned (some content))).reason = true) := by
  refine ⟨⟨rfl, occursIn_append _ _⟩,
          ⟨rfl, occursIn_append _ _⟩, ?_, ?_, ⟨rfl, occursIn_append _ _⟩,
          ⟨rfl, occursIn_append _ _⟩, ?_, ?_⟩
  · intro hp
    have hred : classifyRelevance parse (.returned (some content)) =
        ⟨true, ("Classification error: ").toList ++ msg⟩ := by
      simp [classifyRelevance, hp]
    rw [hred]
    exact ⟨rfl, occursIn_append _ _⟩
  · intro hp hbad
    obtain ⟨rf, rs, sf⟩ := parsed
    simp only [classifyRelevance, hp]
    rcases rf with _ | rv
    · exact ⟨rfl, occursIn_append _ _⟩
    · rcases rs with _ | sv
      · cases rv <;> exact ⟨rfl, occursIn_append _ _⟩
      · cases rv with
        | jb bv =>
          cases sv with
          | js str =>
            rcases hbad with hb | hr
            · exact absurd rfl (hb bv)
            · exact absurd rfl (hr str)
          | jb b2 => exact ⟨rfl, occursIn_append _ _⟩
          | other => exact ⟨rfl, occursIn_append _ _⟩
        | js sr => cases sv <;> exact ⟨rfl, occursIn_append _ _⟩
        | other => cases sv <;> exact ⟨rfl, occursIn_append _ _⟩
  · intro hp
    have hred : analyzeChangeRelevanceAndSummary parse (.returned (some content)) =
        ⟨true, ("Analysis error: ").toList ++ msg,
         ("Change detected but analysis failed. Manual review recommended.").toList⟩ := by
      simp [analyzeChangeRelevanceAndSummary, hp]
    rw [hred]
    exact ⟨rfl, occursIn_append _ _⟩
  · intro hp hbad
    obtain ⟨rf, rs, sf⟩ := parsed
    simp only [analyzeChangeRelevanceAndSummary, hp]
    rcases rf with _ | rv
    · exact ⟨rfl, occursIn_append _ _⟩
    · rcases rs with _ | sv
      · cases rv <;> exact ⟨rfl, occursIn_append _ _⟩
      · rcases sf with _ | tv
        · cases rv <;> cases sv <;> exact ⟨rfl, occursIn_append _ _⟩
        · cases rv with
          | jb bv =>
            cases sv with
            | js str =>
              cases tv with
              | js str2 =>
                rcases hbad with hb | hr | hs
                · exact absurd rfl (hb bv)
                · exact absurd rfl (hr str)
                · exact absurd rfl (hs str2)
              | jb b3 => exact ⟨rfl, occursIn_append _ _⟩
              | other => exact ⟨rfl, occursIn_append _ _⟩
            | jb b2 => cases tv <;> exact ⟨rfl, occursIn_append _ _⟩
            | other => cases tv <;> exact ⟨rfl, occursIn_append _ _⟩
          | js sr => cases sv <;> cases tv <;> exact ⟨rfl, occursIn_append _ _⟩
          | other => cases sv <;> cases tv <;> exact ⟨rfl, occursIn_append _ _⟩

/-- Witness for C4: a parse function that always fails, exercised on a
failed call and on returned content that does not parse. -/
theorem classifier_fails_open_witness :
    ((classifyRelevance (fun _ => .error ("bad json").toList)
        (.callFailed ("network down").toList)).relevant = true ∧
      occursIn ("network down").toList
        (classifyRelevance (fun _ => .error ("bad json").toList)
          (.callFailed ("network down").toList)).reason = true) ∧
    ((classifyRelevance (fun _ => .error ("bad json").toList)
        (.returned (some ("oops").toList))).relevant = true ∧
      occursIn ("bad json").toList
        (classifyRelevance (fun _ => .error ("bad json").toList)
          (.returned (some ("oops").toList))).reason = true) ∧
    (analyzeChangeRelevanceAndSummary (fun _ => .error ("bad json").toList)
        (.returned none)).relevant = true := by
  have h1 := classifier_fails_open (fun _ => .error ("bad json").toList)
    ("network down").toList ("oops").toList ⟨none, none, none⟩
  have h2 := classifier_fails_open (fun _ => .error ("bad json").toList)
    ("bad json").toList ("oops").toList ⟨none, none, none⟩
  exact ⟨h1.1, h2.2.2.1 rfl, h1.2.2.2.2.2.1.1⟩

/-! ## C2: the heuristic hit condition -/

/-- Claim C2: the heuristic filter reports a hit exactly when some
configured positive keyword occurs case-insensitively in the text, no
negative-hint term (configured hints together with the built-in
unavailability phrases) occurs, and, when a goal date is configured, the
date occurs in ISO or condensed form; in particular any negative hit
forces a miss regardless of positive matches. -/
theorem checkHeuristic_hit_iff (text : List Char) (site : SiteConfig) :
    ((checkHeuristic text site).hit = true ↔
      ((∃ kw ∈ site.goal_keywords.getD [],
          occursIn (toLowerList kw) (toLowerList text) = true) ∧
       (∀ hint ∈ site.goal_negative_hints.getD [] ++ builtinNegativeHints,
          occursIn (toLowerList hint) (toLowerList text) = false) ∧
       (∀ isoDate, site.goal_date = some isoDate →
          (occursIn isoDate (toLowerList text) = true ∨
           occursIn (isoDate.filter (fun c => c ≠ '-')) (toLowerList text) = true)))) ∧
    (∀ hint ∈ site.goal_negative_hints.getD [] ++ builtinNegativeHints,
       occursIn (toLowerList hint) (toLowerList text) = true →
       (checkHeuristic text site).hit = false) := by
  constructor
  · cases hgd : site.goal_date with
    | none =>
      simp only [checkHeuristic, hgd, Bool.and_eq_true, Bool.not_eq_true',
        decide_eq_true_eq, decide_eq_false_iff_not, List.length_pos_iff_exists_mem,
        List.mem_filter, not_exists, not_and]
      constructor
      · rintro ⟨⟨hA, hB⟩, -⟩
        refine ⟨hA, fun hint hm => ?_, fun isoDate hd => by cases hd⟩
        simpa using hB hint hm
      · rintro ⟨hA, hB, -⟩
        refine ⟨⟨hA, fun x hx => ?_⟩, trivial⟩
        simp [hB x hx]
    | some d =>
      simp only [checkHeuristic, hgd, Bool.and_eq_true, Bool.not_eq_true',
        decide_eq_true_eq, decide_eq_false_iff_not, List.length_pos_iff_exists_mem,
        List.mem_filter, not_exists, not_and, Bool.or_eq_true]
      constructor
      · rintro ⟨⟨hA, hB⟩, hD⟩
        refine ⟨hA, fun hint hm => ?_, fun isoDate hd => ?_⟩
        · simpa using hB hint hm
        · cases hd
          exact hD
      · rintro ⟨hA, hB, hD⟩
        refine ⟨⟨hA, fun x hx => ?_⟩, ?_⟩
        · simp [hB x hx]
        · exact hD d rfl
  · intro hint hmem hocc
    simp only [checkHeuristic, Bool.and_eq_true, decide_eq_true_eq]
    simp
    intro hpos h1 h2
    rcases List.mem_append.mp hmem with hm | hm
    · exact absurd (h1 hint hm) (by simp [hocc])
    · exact absurd (h2 hint hm) (by simp [hocc])

/-- Witness for C2: a hit on a text with keyword and date and no
negative hints, and a miss forced by the built-in phrase fully
committed despite a positive keyword. -/
theorem checkHeuristic_hit_iff_witness :
    (checkHeuristic ("Reservations available on 2025-10-21").toList
      ⟨"s", some [("available").toList], none, some ("2025-10-21").toList,
        some .strict⟩).hit = true ∧
    (checkHeuristic ("available but fully committed").toList
      ⟨"s", some [("available").toList], none, none, some .strict⟩).hit = false := by
  constructor
  · exact (checkHeuristic_hit_iff ("Reservations available on 2025-10-21").toList
      ⟨"s", some [("available").toList], none, some ("2025-10-21").toList,
        some .strict⟩).1.mpr
      ⟨⟨("available").toList, by decide, by decide⟩, by decide,
       by intro isoDate hd; cases hd; exact Or.inl (by decide)⟩
  · exact (checkHeuristic_hit_iff ("available but fully committed").toList
      ⟨"s", some [("available").toList], none, none, some .strict⟩).2
      ("fully committed").toList (by decide) (by decide)

/-! ## C5: bounded concurrency and single flight per site -/

theorem sched_inv_init (maxConcurrency : Nat) : SchedInv maxConcurrency initState :=
  ⟨rfl, by simp [initState], fun siteId _ => by simp [initState, inFlightCount],
   fun siteId => by simp [initState, inFlightCount]⟩

theorem sched_inv_step {maxConcurrency : Nat} {s t : SchedState}
    (hinv : SchedInv maxConcurrency s) (hstep : SchedStep maxConcurrency s t) :
    SchedInv maxConcurrency t := by
  obtain ⟨hcnt, hbound, hflag, hone⟩ := hinv
  cases hstep with
  | dispatch siteId hidle hcap =>
    refine ⟨hcnt, hbound, ?_, ?_⟩
    · intro x hx
      by_cases hxs : x = siteId
      · subst hxs
        have hx2 : (if x = x then true else s.isRunning x) = false := hx
        rw [if_pos rfl] at hx2
        cases hx2
      · have hx2 : (if x = siteId then true else s.isRunning x) = false := hx
        rw [if_neg hxs] at hx2
        have h0 := hflag x hx2
        have hsg : (s.queue ++ [siteId]).count x = s.queue.count x := by
          rw [List.count_append, List.count_cons_of_ne hxs, List.count_nil]
          omega
        simp only [inFlightCount] at h0 ⊢
        omega
    · intro x
      by_cases hxs : x = siteId
      · subst hxs
        have h0 := hflag x hidle
        have hsg : (s.queue ++ [x]).count x = s.queue.count x + 1 := by
          rw [List.count_append, List.count_cons_self, List.count_nil]
        simp only [inFlightCount] at h0 ⊢
        omega
      · have h1 := hone x
        have hsg : (s.queue ++ [siteId]).count x = s.queue.count x := by
          rw [List.count_append, List.count_cons_of_ne hxs, List.count_nil]
          omega
        simp only [inFlightCount] at h1 ⊢
        omega
  | workerTake siteId rest hq hcap =>
    refine ⟨?_, ?_, ?_, ?_⟩
    · show s.activeWorkers + 1 = (siteId :: s.running).length
      simp only [List.length_cons]
      omega
    · show (siteId :: s.running).length ≤ maxConcurrency
      simp only [List.length_cons]
      omega
    · intro x hx
      have h0 := hflag x hx
      simp only [inFlightCount] at h0 ⊢
      by_cases hxs : x = siteId
      · subst hxs
        have hq1 : s.queue.count x = rest.count x + 1 := by
          rw [hq, List.count_cons_self]
        have hr1 : (x :: s.running).count x = s.running.count x + 1 :=
          List.count_cons_self _ _
        omega
      · have hq1 : s.queue.count x = rest.count x := by
          rw [hq, List.count_cons_of_ne hxs]
        have hr1 : (siteId :: s.running).count x = s.running.count x :=
          List.count_cons_of_ne hxs _
        omega
    · intro x
      have h1 := hone x
      simp only [inFlightCount] at h1 ⊢
      by_cases hxs : x = siteId
      · subst hxs
        have hq1 : s.queue.count x = rest.count x + 1 := by
          rw [hq, List.count_cons_self]
        have hr1 : (x :: s.running).count x = s.running.count x + 1 :=
          List.count_cons_self _ _
        omega
      · have hq1 : s.queue.count x = rest.count x := by
          rw [hq, List.count_cons_of_ne hxs]
        have hr1 : (siteId :: s.running).count x = s.running.count x :=
          List.count_cons_of_ne hxs _
        omega
  | jobFinish siteId hrun =>
    have hpos : 0 < s.running.count siteId := List.count_pos_iff.mpr hrun
    have hcl : s.running.count siteId ≤ s.running.length := List.count_le_length _ _
    have hlen : (s.running.erase siteId).length = s.running.length - 1 :=
      List.length_erase_of_mem hrun
    have hes : (s.running.erase siteId).count siteId = s.running.count siteId - 1 :=
      List.count_erase_self _ _
    refine ⟨?_, ?_, ?_, ?_⟩
    · show s.activeWorkers - 1 = (s.running.erase siteId).length
      rw [hlen]
      omega
    · show (s.running.erase siteId).length ≤ maxConcurrency
      rw [hlen]
      omega
    · intro x hx
      by_cases hxs : x = siteId
      · subst hxs
        have h1 := hone x
        simp only [inFlightCount] at h1 ⊢
        omega
      · have hx2 : (if x = siteId then false else s.isRunning x) = false := hx
        rw [if_neg hxs] at hx2
        have h0 := hflag x hx2
        have her : (s.running.erase siteId).count x = s.running.count x :=
          List.count_erase_of_ne hxs _
        simp only [inFlightCount] at h0 ⊢
        omega
    · intro x
      have h1 := hone x
      simp only [inFlightCount] at h1 ⊢
      by_cases hxs : x = siteId
      · subst hxs
        omega
      · have her : (s.running.erase siteId).count x = s.running.count x :=
          List.count_erase_of_ne hxs _
        omega

theorem sched_inv_of_reachable (maxConcurrency : Nat) (s : SchedState)
    (h : SchedReachable maxConcurrency s) : SchedInv maxConcurrency s := by
  induction h with
  | init => exact sched_inv_init maxConcurrency
  | step hr hstep ih => exact sched_inv_step ih hstep

/-- Claim C5: in every state reachable by interleaving the dispatcher
and worker atomic blocks, the number of site jobs executing concurrently
(the running multiset, tracked by activeWorkers) never exceeds
maxConcurrency, and no site ever has two jobs in flight (queued or
executing): the isRunning flag is set before enqueue and cleared only
after the job completes, which is what the dispatch and jobFinish steps
encode. -/
theorem scheduler_bounded_single_flight (maxConcurrency : Nat) (s : SchedState)
    (h : SchedReachable maxConcurrency s) :
    s.activeWorkers = s.running.length ∧
    s.running.length ≤ maxConcurrency ∧
    (∀ siteId, inFlightCount s siteId ≤ 1) := by
  obtain ⟨h1, h2, h3, h4⟩ := sched_inv_of_reachable maxConcurrency s h
  exact ⟨h1, h2, h4⟩

/-- Witness for C5: the state reached by dispatching one site and having
a worker pick it up, with maxConcurrency three. -/
theorem scheduler_bounded_single_flight_witness :
    SchedReachable 3
      ⟨[], ["a"], 1, fun x => if x = "a" then true else false⟩ ∧
    (List.length ["a"] ≤ 3 ∧
     ∀ siteId, inFlightCount
       ⟨[], ["a"], 1, fun x => if x = "a" then true else false⟩ siteId ≤ 1) := by
  have h0 : SchedReachable 3 initState := SchedReachable.init
  have h1 := SchedReachable.step h0
    (SchedStep.dispatch initState "a" rfl (by decide))
  have h2 := SchedReachable.step h1
    (SchedStep.workerTake _ "a" [] rfl (by decide))
  have hr : SchedReachable 3
      ⟨[], ["a"], 1, fun x => if x = "a" then true else false⟩ := h2
  have hc := scheduler_bounded_single_flight 3 _ hr
  exact ⟨hr, hc.2.1, hc.2.2⟩

/-! ## C8: error throttling -/

/-- Claim C8: shouldThrottleError returns false and records the current
time when the site has no entry or a stale entry (older than the ten
minute window), and returns true with the map unchanged otherwise;
consequently a second error for the same site within the window is
suppressed, so two errors within ten minutes yield exactly one error
notification. Timestamps come from the system clock and are positive,
which the well-formedness hypothesis records. -/
theorem error_throttle_spec (st : ThrottleState) (siteId : String)
    (t0 t1 : Int)
    (hwf : ∀ s t, st.entries s = some t → 0 < t)
    (ht0 : 0 < t0) :
    ((st.entries siteId = none ∨
      (∃ t, st.entries siteId = some t ∧ t0 - t > throttleIntervalMs)) →
      (shouldThrottleError st siteId t0).1 = false ∧
      (shouldThrottleError st siteId t0).2.entries siteId = some t0) ∧
    ((∀ t, st.entries siteId = some t → t0 - t ≤ throttleIntervalMs) →
      st.entries siteId ≠ none →
      (shouldThrottleError st siteId t0).1 = true ∧
      (shouldThrottleError st siteId t0).2 = st) ∧
    ((st.entries siteId = none ∨
      (∃ t, st.entries siteId = some t ∧ t0 - t > throttleIntervalMs)) →
      t1 - t0 ≤ throttleIntervalMs →
      (shouldThrottleError (shouldThrottleError st siteId t0).2 siteId t1).1 = true) := by
  refine ⟨?_, ?_, ?_⟩
  · rintro (hnone | ⟨t, hsome, hstale⟩)
    · simp [shouldThrottleError, hnone]
    · have hc : t = 0 ∨ t0 - t > throttleIntervalMs := Or.inr hstale
      simp only [shouldThrottleError, hsome]
      rw [if_pos hc]
      exact ⟨rfl, by simp⟩
  · intro hfresh hne
    cases hsome : st.entries siteId with
    | none => exact absurd hsome hne
    | some t =>
      have htpos := hwf siteId t hsome
      have hle := hfresh t hsome
      have hc : ¬(t = 0 ∨ t0 - t > throttleIntervalMs) := by omega
      simp only [shouldThrottleError, hsome]
      rw [if_neg hc]
      exact ⟨rfl, rfl⟩
  · intro harm hwin
    have hentry : (shouldThrottleError st siteId t0).2.entries siteId = some t0 := by
      rcases harm with hnone | ⟨t, hsome, hstale⟩
      · simp [shouldThrottleError, hnone]
      · have hc : t = 0 ∨ t0 - t > throttleIntervalMs := Or.inr hstale
        simp only [shouldThrottleError, hsome]
        rw [if_pos hc]
        simp
    have hc2 : ¬(t0 = 0 ∨ t1 - t0 > throttleIntervalMs) := by omega
    generalize (shouldThrottleError st siteId t0).2 = st1 at hentry ⊢
    simp only [shouldThrottleError, hentry]
    rw [if_neg hc2]

/-- Witness for C8: empty throttle map, first error at time 5 arms the
throttle and notifies, second error at time 10 is suppressed. -/
theorem error_throttle_spec_witness :
    (shouldThrottleError ⟨fun _ => none⟩ "s" 5).1 = false ∧
    (shouldThrottleError ⟨fun _ => none⟩ "s" 5).2.entries "s" = some 5 ∧
    (shouldThrottleError (shouldThrottleError ⟨fun _ => none⟩ "s" 5).2 "s" 10).1 = true := by
  have h := error_throttle_spec ⟨fun _ => none⟩ "s" 5 10
    (by intro s t ht; simp at ht) (by norm_num)
  exact ⟨(h.1 (Or.inl rfl)).1, (h.1 (Or.inl rfl)).2,
    h.2.2 (Or.inl rfl) (by norm_num [throttleIntervalMs])⟩

/-! ## C9: fetch retry policy -/

/-- Claim C9: a fetch attempt that fails is retried at most once, only
on a timeout-class failure (message containing the word Timeout), after
a fixed 2000 ms delay; a non-timeout first failure and any failure of
the second attempt propagate to the caller. -/
theorem scrape_retry_spec (fetch : Nat → Except (List Char) (List Char)) :
    (scrapeSite fetch).attemptsMade ≤ 2 ∧
    (∀ t, fetch 1 = .ok t →
      (scrapeSite fetch).result = .ok t ∧
      (scrapeSite fetch).attemptsMade = 1 ∧ (scrapeSite fetch).delaysMs = []) ∧
    (∀ e, fetch 1 = .error e → occursIn timeoutMarker e = false →
      (scrapeSite fetch).result = .error e ∧
      (scrapeSite fetch).attemptsMade = 1 ∧ (scrapeSite fetch).delaysMs = []) ∧
    (∀ e, fetch 1 = .error e → occursIn timeoutMarker e = true →
      (scrapeSite fetch).attemptsMade = 2 ∧
      (scrapeSite fetch).delaysMs = [2000] ∧
      (∀ t2, fetch 2 = .ok t2 → (scrapeSite fetch).result = .ok t2) ∧
      (∀ e2, fetch 2 = .error e2 → (scrapeSite fetch).result = .error e2)) := by
  have hsecond : ∀ r, fetch 2 = r → scrapeWithRetry fetch 2 =
      (match r with
       | .ok t => ⟨.ok t, 1, []⟩
       | .error e => ⟨.error e, 1, []⟩) := by
    intro r hr
    rw [scrapeWithRetry]
    cases r with
    | ok t => simp [hr]
    | error e => simp [hr]
  refine ⟨?_, ?_, ?_, ?_⟩
  · rw [scrapeSite, scrapeWithRetry]
    cases h1 : fetch 1 with
    | ok t => simp
    | error e =>
      simp only
      split
      · rw [hsecond (fetch 2) rfl]
        cases fetch 2 <;> simp
      · simp
  · intro t ht
    rw [scrapeSite, scrapeWithRetry, ht]
    exact ⟨rfl, rfl, rfl⟩
  · intro e he hto
    rw [scrapeSite, scrapeWithRetry, he]
    simp [hto]
  · intro e he hto
    rw [scrapeSite, scrapeWithRetry, he]
    rw [hsecond (fetch 2) rfl]
    refine ⟨?_, ?_, ?_, ?_⟩
    · cases h2 : fetch 2 <;> simp [hto, h2]
    · cases h2 : fetch 2 <;> simp [hto, h2]
    · intro t2 ht2
      simp [hto, ht2]
    · intro e2 he2
      simp [hto, he2]

/-- Witness for C9: the first attempt times out, the retry succeeds
after the 2000 ms delay. -/
theorem scrape_retry_spec_witness :
    (scrapeSite (fun n => if n = 1
        then .error ("Timeout 30000ms exceeded").toList
        else .ok ("page text").toList)).attemptsMade = 2 ∧
    (scrapeSite (fun n => if n = 1
        then .error ("Timeout 30000ms exceeded").toList
        else .ok ("page text").toList)).delaysMs = [2000] ∧
    (scrapeSite (fun n => if n = 1
        then .error ("Timeout 30000ms exceeded").toList
        else .ok ("page text").toList)).result = .ok ("page text").toList := by
  have h := (scrape_retry_spec (fun n => if n = 1
      then .error ("Timeout 30000ms exceeded").toList
      else .ok ("page text").toList)).2.2.2
      ("Timeout 30000ms exceeded").toList rfl (by decide)
  exact ⟨h.1, h.2.1, h.2.2.1 ("page text").toList rfl⟩

end VisualPing
